import Mathlib

/-!
Shallow embedding of `src/app.py` (Mergington High School activities API).

Python strings are modelled as `List Char`; Python `datetime.time` values are
modelled as minutes since midnight (`Nat`), which preserves their order.
Exceptions (`ValueError` from `datetime.strptime`, `HTTPException` from the
signup endpoint) are modelled with `Except`.
-/

/-- Whitespace stripped by Python `str.strip` (ASCII range; the exotic
Unicode space characters are not modelled). -/
def isPySpace (c : Char) : Bool :=
  c = ' ' || c = '\t' || c = '\n' || c = '\r' || c = '\x0b' || c = '\x0c'

/-- Python `s.strip()`. -/
def pyStrip (cs : List Char) : List Char :=
  ((cs.dropWhile isPySpace).reverse.dropWhile isPySpace).reverse

/-- Python `s.split(", ")`: left-to-right split on the two-character separator. -/
def splitCommaSpace : List Char → List (List Char)
  | [] => [[]]
  | ',' :: ' ' :: rest => [] :: splitCommaSpace rest
  | c :: rest =>
    match splitCommaSpace rest with
    | [] => [[c]]
    | seg :: segs => (c :: seg) :: segs

/-- Python `s.split(" and ")`. -/
def splitAndSep : List Char → List (List Char)
  | [] => [[]]
  | ' ' :: 'a' :: 'n' :: 'd' :: ' ' :: rest => [] :: splitAndSep rest
  | c :: rest =>
    match splitAndSep rest with
    | [] => [[c]]
    | seg :: segs => (c :: seg) :: segs

/-- Python `s.split(",")`. -/
def splitComma : List Char → List (List Char)
  | [] => [[]]
  | ',' :: rest => [] :: splitComma rest
  | c :: rest =>
    match splitComma rest with
    | [] => [[c]]
    | seg :: segs => (c :: seg) :: segs

/-- A character admitted by the regex class `[APM]`. -/
def isAPM (c : Char) : Bool :=
  c = 'A' || c = 'P' || c = 'M'

/-- Numeric value of an ASCII digit. -/
def digitVal (c : Char) : Nat :=
  c.toNat - '0'.toNat

/-- Matches the regex tail `:\d{2} [APM]{2}` right after the hour digits;
returns the matched characters and the remaining input. -/
def matchAfterHour : List Char → Option (List Char × List Char)
  | ':' :: m1 :: m2 :: ' ' :: p1 :: p2 :: rest =>
    if m1.isDigit && m2.isDigit && isAPM p1 && isAPM p2 then
      some ([':', m1, m2, ' ', p1, p2], rest)
    else none
  | _ => none

/-- Matches one capture group `\d{1,2}:\d{2} [APM]{2}` of the time-range
regex, with the greedy-then-backtrack choice of one or two hour digits
that the regex engine makes. -/
def matchGroup : List Char → Option (List Char × List Char)
  | [] => none
  | d1 :: rest =>
    if d1.isDigit then
      match rest with
      | [] => none
      | d2 :: rest2 =>
        if d2.isDigit then
          match matchAfterHour rest2 with
          | some (m, r) => some (d1 :: d2 :: m, r)
          | none =>
            match matchAfterHour rest with
            | some (m, r) => some (d1 :: m, r)
            | none => none
        else
          match matchAfterHour rest with
          | some (m, r) => some (d1 :: m, r)
          | none => none
    else none

/-- Python `re.match(r"(\d{1,2}:\d{2} [APM]{2}) - (\d{1,2}:\d{2} [APM]{2})", s)`:
anchored at the start only; returns the two capture groups on success. -/
def matchTimeRange (cs : List Char) : Option (List Char × List Char) :=
  match matchGroup cs with
  | none => none
  | some (g1, rest) =>
    match rest with
    | ' ' :: '-' :: ' ' :: rest2 =>
      match matchGroup rest2 with
      | none => none
      | some (g2, _) => some (g1, g2)
    | _ => none

/-- Conversion of a 12-hour clock hour to a 24-hour clock hour, as
`datetime.strptime` does for `%I` with `%p`. -/
def to24Hour (h : Nat) (pm : Bool) : Nat :=
  if pm then (if h = 12 then 12 else h + 12) else (if h = 12 then 0 else h)

/-- Validation and conversion core of `datetime.strptime(s, "%I:%M %p")`:
the hour must be 1..12, the minute 0..59, the marker `AM` or `PM`
(the inputs reaching it only carry characters from `[APM]`); the result
is the time of day in minutes since midnight. -/
def strptimeCore (h m : Nat) (p1 p2 : Char) : Option Nat :=
  if 1 ≤ h ∧ h ≤ 12 ∧ m ≤ 59 ∧ ((p1 = 'A' ∨ p1 = 'P') ∧ p2 = 'M') then
    some (60 * to24Hour h (p1 = 'P') + m)
  else none

/-- `datetime.strptime(s, "%I:%M %p").time()` on the strings captured by the
time-range regex (which always have one of the two shapes below). -/
def strptimeTime : List Char → Option Nat
  | [h1, ':', m1, m2, ' ', p1, p2] =>
    strptimeCore (digitVal h1) (10 * digitVal m1 + digitVal m2) p1 p2
  | [h1, h2, ':', m1, m2, ' ', p1, p2] =>
    strptimeCore (10 * digitVal h1 + digitVal h2) (10 * digitVal m1 + digitVal m2) p1 p2
  | _ => none

/-- Exceptions observable from the code: Python `ValueError` raised by
`strptime` (carrying the offending time string) and FastAPI
`HTTPException` (carrying status code and detail message). -/
inductive Err where
  | valueError (data : List Char)
  | httpError (status : Nat) (detail : List Char)
deriving DecidableEq, Repr

instance exceptDecEq {ε α : Type} [DecidableEq ε] [DecidableEq α] :
    DecidableEq (Except ε α) := fun x y =>
  match x, y with
  | .ok a, .ok b => if h : a = b then .isTrue (by rw [h]) else .isFalse (by simp [h])
  | .error a, .error b => if h : a = b then .isTrue (by rw [h]) else .isFalse (by simp [h])
  | .ok _, .error _ => .isFalse (by simp)
  | .error _, .ok _ => .isFalse (by simp)

/-- A parsed schedule slot: (day name, start, end), times in minutes. -/
abbrev Slot := List Char × Nat × Nat

/-- The `days_map` dictionary lookup `days_map.get(day, day)`. -/
def days_map (d : List Char) : List Char :=
  if d = "Mondays".data then "Monday".data
  else if d = "Tuesdays".data then "Tuesday".data
  else if d = "Wednesdays".data then "Wednesday".data
  else if d = "Thursdays".data then "Thursday".data
  else if d = "Fridays".data then "Friday".data
  else if d = "Saturdays".data then "Saturday".data
  else if d = "Sundays".data then "Sunday".data
  else d

/-- `parse_schedule` from `src/app.py`, line by line: split on `", "`,
take `parts[0]` as the day segment and `parts[1]` (or `""`) as the time
segment, split days on `" and "`, match the time-range regex, and on a
match run `strptime` on both captures (a failure raises `ValueError`)
and emit one slot per day; otherwise fall back to splitting the day
segment on `","` and re-matching the regex against `parts[1]`. -/
def parse_schedule (schedule_str : List Char) : Except Err (List Slot) :=
  let parts := splitCommaSpace schedule_str
  let days_part := parts.headD []
  let time_part := parts.getD 1 []
  let days := (splitAndSep days_part).map pyStrip
  match matchTimeRange time_part with
  | some (g1, g2) =>
    match strptimeTime g1 with
    | none => .error (.valueError g1)
    | some start_t =>
      match strptimeTime g2 with
      | none => .error (.valueError g2)
      | some end_t => .ok (days.map (fun d => (days_map d, start_t, end_t)))
  | none =>
    let multi_days := (splitComma days_part).map pyStrip
    if parts.length > 1 then
      match matchTimeRange (parts.getD 1 []) with
      | some (g1, g2) =>
        match strptimeTime g1 with
        | none => .error (.valueError g1)
        | some start_t =>
          match strptimeTime g2 with
          | none => .error (.valueError g2)
          | some end_t => .ok (multi_days.map (fun d => (days_map d, start_t, end_t)))
      | none => .ok []
    else .ok []

/-- The body of the inner loop of `schedules_collide`: same day and
strictly overlapping time intervals. -/
def slot_overlap (a b : Slot) : Bool :=
  decide (a.1 = b.1) && decide (a.2.1 < b.2.2) && decide (b.2.1 < a.2.2)

/-- `schedules_collide` from `src/app.py`: parse both schedules (a parse
error propagates) and search every pair of slots for an overlap. -/
def schedules_collide (schedule1 schedule2 : List Char) : Except Err Bool :=
  match parse_schedule schedule1 with
  | .error e => .error e
  | .ok slots1 =>
    match parse_schedule schedule2 with
    | .error e => .error e
    | .ok slots2 =>
      .ok (slots1.any (fun a => slots2.any (fun b => slot_overlap a b)))

/-- True when `parse_schedule` returns normally rather than raising. -/
def parsesOk (s : List Char) : Bool :=
  match parse_schedule s with
  | .ok _ => true
  | .error _ => false

/-- An activity record of the in-memory database. -/
structure Activity where
  description : List Char
  schedule : List Char
  max_participants : Nat
  participants : List (List Char)
deriving DecidableEq, Repr

/-- The activity directory: an insertion-ordered mapping from activity
name to record, as a Python `dict` (keys unique). -/
abbrev ActivityDir := List (List Char × Activity)

/-- Python `activities[name]` combined with the `name in activities` test:
first entry with the given key. -/
def findAct (name : List Char) : ActivityDir → Option Activity
  | [] => none
  | (n, a) :: rest => if n = name then some a else findAct name rest

/-- The f-string detail of the collision `HTTPException`. -/
def collisionDetail (email activity_name other_name : List Char) : List Char :=
  "Impossible d'inscrire ".data ++ email ++ " à ".data ++ activity_name ++
    " : les horaires chevauchent avec ".data ++ other_name ++ ".".data

/-- The collision-check loop of `signup_for_activity`: iterate the
directory in order, skip the target activity, and for every other
activity containing the email run `schedules_collide`; a parse error
propagates, a collision raises the 400 `HTTPException`. -/
def checkCollisions (activity_name sched email : List Char) : ActivityDir → Except Err Unit
  | [] => .ok ()
  | (other_name, other) :: rest =>
    if other_name = activity_name then checkCollisions activity_name sched email rest
    else if email ∈ other.participants then
      match schedules_collide sched other.schedule with
      | .error e => .error e
      | .ok true => .error (.httpError 400 (collisionDetail email activity_name other_name))
      | .ok false => checkCollisions activity_name sched email rest
    else checkCollisions activity_name sched email rest

/-- The mutation `activity["participants"].append(email)`: the entry with
the target key gets the email appended, every other entry is unchanged. -/
def appendParticipant (activity_name email : List Char) (acts : ActivityDir) : ActivityDir :=
  acts.map fun p =>
    if p.1 = activity_name then
      (p.1, { p.2 with participants := p.2.participants ++ [email] })
    else p

/-- `signup_for_activity` from `src/app.py`. The pair returned is the
response (success message or raised exception) together with the
activity directory after the request. -/
def signup_for_activity (acts : ActivityDir) (activity_name email : List Char) :
    Except Err (List Char) × ActivityDir :=
  match findAct activity_name acts with
  | none => (.error (.httpError 404 "Activity not found".data), acts)
  | some activity =>
    if email ∈ activity.participants then
      (.error (.httpError 400 "Student already signed up for this activity".data), acts)
    else
      match checkCollisions activity_name activity.schedule email acts with
      | .error e => (.error e, acts)
      | .ok _ =>
        (.ok ("Signed up ".data ++ email ++ " for ".data ++ activity_name),
         appendParticipant activity_name email acts)

/-- The seeded in-memory activity database from `src/app.py`. -/
def activities : ActivityDir :=
  [("Basketball Team".data,
    { description := "Join the school basketball team and compete in local leagues".data,
      schedule := "Wednesdays, 4:00 PM - 6:00 PM".data,
      max_participants := 15,
      participants := ["alex@mergington.edu".data, "jordan@mergington.edu".data] }),
   ("Soccer Club".data,
    { description := "Practice soccer skills and play friendly matches".data,
      schedule := "Saturdays, 10:00 AM - 12:00 PM".data,
      max_participants := 20,
      participants := ["lucas@mergington.edu".data, "mia@mergington.edu".data] }),
   ("Art Workshop".data,
    { description := "Explore painting, drawing, and sculpture techniques".data,
      schedule := "Thursdays, 3:30 PM - 5:00 PM".data,
      max_participants := 10,
      participants := ["ava@mergington.edu".data, "liam@mergington.edu".data] }),
   ("Drama Club".data,
    { description := "Act, direct, and produce school plays and performances".data,
      schedule := "Mondays, 4:00 PM - 5:30 PM".data,
      max_participants := 18,
      participants := ["ella@mergington.edu".data, "noah@mergington.edu".data] }),
   ("Debate Team".data,
    { description := "Develop public speaking and argumentation skills".data,
      schedule := "Tuesdays, 4:00 PM - 5:30 PM".data,
      max_participants := 12,
      participants := ["oliver@mergington.edu".data, "isabella@mergington.edu".data] }),
   ("Math Club".data,
    { description := "Solve challenging math problems and prepare for competitions".data,
      schedule := "Fridays, 2:00 PM - 3:30 PM".data,
      max_participants := 16,
      participants := ["ethan@mergington.edu".data, "charlotte@mergington.edu".data] }),
   ("Chess Club".data,
    { description := "Learn strategies and compete in chess tournaments".data,
      schedule := "Fridays, 3:30 PM - 5:00 PM".data,
      max_participants := 12,
      participants := ["michael@mergington.edu".data, "daniel@mergington.edu".data] }),
   ("Programming Class".data,
    { description := "Learn programming fundamentals and build software projects".data,
      schedule := "Tuesdays and Thursdays, 3:30 PM - 4:30 PM".data,
      max_participants := 20,
      participants := ["emma@mergington.edu".data, "sophia@mergington.edu".data] }),
   ("Gym Class".data,
    { description := "Physical education and sports activities".data,
      schedule := "Mondays, Wednesdays, Fridays, 2:00 PM - 3:00 PM".data,
      max_participants := 30,
      participants := ["john@mergington.edu".data, "olivia@mergington.edu".data] })]

theorem bool_eq_of_iff {a b : Bool} (h : a = true ↔ b = true) : a = b := by
  cases a <;> cases b <;> simp_all

theorem slot_overlap_symm (a b : Slot) : slot_overlap a b = slot_overlap b a := by
  unfold slot_overlap
  apply bool_eq_of_iff
  simp only [Bool.and_eq_true, decide_eq_true_eq]
  constructor
  · rintro ⟨⟨h1, h2⟩, h3⟩; exact ⟨⟨h1.symm, h3⟩, h2⟩
  · rintro ⟨⟨h1, h2⟩, h3⟩; exact ⟨⟨h1.symm, h3⟩, h2⟩

theorem collideAny_symm (l1 l2 : List Slot) :
    (l1.any fun a => l2.any fun b => slot_overlap a b)
      = (l2.any fun a => l1.any fun b => slot_overlap a b) := by
  apply bool_eq_of_iff
  constructor <;> intro h
  · obtain ⟨a, ha, h2⟩ := List.any_eq_true.mp h
    obtain ⟨b, hb, hf⟩ := List.any_eq_true.mp h2
    exact List.any_eq_true.mpr ⟨b, hb, List.any_eq_true.mpr ⟨a, ha, by
      rw [slot_overlap_symm]; exact hf⟩⟩
  · obtain ⟨a, ha, h2⟩ := List.any_eq_true.mp h
    obtain ⟨b, hb, hf⟩ := List.any_eq_true.mp h2
    exact List.any_eq_true.mpr ⟨b, hb, List.any_eq_true.mpr ⟨a, ha, by
      rw [slot_overlap_symm]; exact hf⟩⟩

/-- C1: for the three-or-more-day comma-separated schedule format, exemplified
by the Gym Class schedule string, `parse_schedule` does NOT produce one slot
per listed day: the fallback re-matches the time regex against `parts[1]`
(a day token) and therefore produces no slots at all. -/
theorem parse_schedule_gym_empty :
    parse_schedule "Mondays, Wednesdays, Fridays, 2:00 PM - 3:00 PM".data = .ok [] := by
  decide

/-- C2 counterexample: an input whose time segment matches the time regex but
is rejected by `strptime` makes `parse_schedule` raise a `ValueError` instead
of degrading to an empty slot list. -/
theorem parse_schedule_raises_on_bad_ampm :
    parse_schedule "Mondays, 1:00 AA - 2:00 PM".data
      = .error (.valueError "1:00 AA".data) := by
  decide

/-- C2 (amended): whenever the time-range regex does not match the time
segment `parts[1]` (or there is no time segment), `parse_schedule` returns
normally with the empty slot list; no error is raised in that case. -/
theorem parse_schedule_no_time_match (s : List Char)
    (h : matchTimeRange ((splitCommaSpace s).getD 1 []) = none) :
    parse_schedule s = .ok [] := by
  unfold parse_schedule
  simp only [h]
  split <;> rfl

theorem parse_schedule_no_time_match_witness :
    matchTimeRange ((splitCommaSpace "not a real schedule".data).getD 1 []) = none
      ∧ parse_schedule "not a real schedule".data = .ok [] :=
  ⟨by decide, parse_schedule_no_time_match _ (by decide)⟩

/-- C3: a schedule that parses to at least one slot of non-zero duration
always collides with itself. -/
theorem schedules_collide_self (s : List Char) (l : List Slot) (x : Slot)
    (h : parse_schedule s = .ok l) (hx : x ∈ l) (hlt : x.2.1 < x.2.2) :
    schedules_collide s s = .ok true := by
  simp only [schedules_collide, h, Except.ok.injEq]
  refine List.any_eq_true.mpr ⟨x, hx, List.any_eq_true.mpr ⟨x, hx, ?_⟩⟩
  simp [slot_overlap, hlt]

theorem schedules_collide_self_witness :
    schedules_collide "Mondays, 4:00 PM - 5:00 PM".data
      "Mondays, 4:00 PM - 5:00 PM".data = .ok true :=
  schedules_collide_self _ [("Monday".data, 960, 1020)] ("Monday".data, 960, 1020)
    (by decide) (by decide) (by decide)

/-- C4: `schedules_collide` is symmetric: swapping its arguments never
changes a returned boolean (and a run that raises keeps raising). -/
theorem schedules_collide_symm (s1 s2 : List Char) :
    (schedules_collide s1 s2).toOption = (schedules_collide s2 s1).toOption := by
  unfold schedules_collide
  rcases h1 : parse_schedule s1 with e1 | l1 <;> rcases h2 : parse_schedule s2 with e2 | l2 <;>
    simp only [Except.toOption, Except.ok.injEq]
  exact congrArg some (collideAny_symm l1 l2)

/-- C5: touching intervals do not collide: when every slot of the first
schedule ends at time `t` and every slot of the second starts at `t`,
the strict-inequality overlap test rejects every pair. -/
theorem schedules_collide_touching (s1 s2 : List Char) (l1 l2 : List Slot) (t : Nat)
    (h1 : parse_schedule s1 = .ok l1) (h2 : parse_schedule s2 = .ok l2)
    (hend : ∀ x ∈ l1, x.2.2 = t) (hstart : ∀ y ∈ l2, y.2.1 = t) :
    schedules_collide s1 s2 = .ok false := by
  simp only [schedules_collide, h1, h2, Except.ok.injEq]
  rw [List.any_eq_false]
  intro a ha
  simp only [Bool.not_eq_true]
  rw [List.any_eq_false]
  intro b hb
  simp [slot_overlap, hend a ha, hstart b hb]

theorem schedules_collide_touching_witness :
    schedules_collide "Mondays, 4:00 PM - 5:00 PM".data
      "Mondays, 5:00 PM - 6:00 PM".data = .ok false :=
  schedules_collide_touching _ _ [("Monday".data, 960, 1020)] [("Monday".data, 1020, 1080)]
    1020 (by decide) (by decide) (by decide) (by decide)

theorem signup_eq_none (acts : ActivityDir) (activity_name email : List Char)
    (hf : findAct activity_name acts = none) :
    signup_for_activity acts activity_name email
      = (.error (.httpError 404 "Activity not found".data), acts) := by
  unfold signup_for_activity
  rw [hf]

theorem signup_eq_dup (acts : ActivityDir) (activity_name email : List Char) (act : Activity)
    (hf : findAct activity_name acts = some act) (hm : email ∈ act.participants) :
    signup_for_activity acts activity_name email
      = (.error (.httpError 400 "Student already signed up for this activity".data), acts) := by
  unfold signup_for_activity
  rw [hf]
  exact if_pos hm

theorem signup_eq_collision_error (acts : ActivityDir) (activity_name email : List Char)
    (act : Activity) (e : Err)
    (hf : findAct activity_name acts = some act) (hm : email ∉ act.participants)
    (hc : checkCollisions activity_name act.schedule email acts = .error e) :
    signup_for_activity acts activity_name email = (.error e, acts) := by
  unfold signup_for_activity
  simp only [hf, if_neg hm, hc]

theorem signup_eq_success (acts : ActivityDir) (activity_name email : List Char)
    (act : Activity)
    (hf : findAct activity_name acts = some act) (hm : email ∉ act.participants)
    (hc : checkCollisions activity_name act.schedule email acts = .ok ()) :
    signup_for_activity acts activity_name email
      = (.ok ("Signed up ".data ++ email ++ " for ".data ++ activity_name),
         appendParticipant activity_name email acts) := by
  unfold signup_for_activity
  simp only [hf, if_neg hm, hc]

theorem checkCollisions_ok (activity_name sched email : List Char) (l : ActivityDir)
    (hnc : ∀ p ∈ l, p.1 ≠ activity_name → email ∈ p.2.participants →
      schedules_collide sched p.2.schedule = .ok false) :
    checkCollisions activity_name sched email l = .ok () := by
  induction l with
  | nil => rfl
  | cons p rest ih =>
    obtain ⟨n, a⟩ := p
    unfold checkCollisions
    by_cases hn : n = activity_name
    · rw [if_pos hn]
      exact ih (fun q hq => hnc q (List.mem_cons_of_mem _ hq))
    · rw [if_neg hn]
      by_cases hm : email ∈ a.participants
      · rw [if_pos hm, hnc (n, a) (List.mem_cons_self _ _) hn hm]
        exact ih (fun q hq => hnc q (List.mem_cons_of_mem _ hq))
      · rw [if_neg hm]
        exact ih (fun q hq => hnc q (List.mem_cons_of_mem _ hq))

/-- C7: capacity is never consulted: whenever the activity exists, the email
is not yet enrolled there, and none of its other enrollments collide, the
signup succeeds and appends the email — even with the participant list
already at or above `max_participants`. -/
theorem signup_ignores_capacity (acts : ActivityDir) (activity_name email : List Char)
    (act : Activity)
    (hfind : findAct activity_name acts = some act)
    (hdup : email ∉ act.participants)
    (hnc : ∀ p ∈ acts, p.1 ≠ activity_name → email ∈ p.2.participants →
      schedules_collide act.schedule p.2.schedule = .ok false)
    (hcap : act.max_participants ≤ act.participants.length) :
    signup_for_activity acts activity_name email
      = (.ok ("Signed up ".data ++ email ++ " for ".data ++ activity_name),
         appendParticipant activity_name email acts) :=
  signup_eq_success acts activity_name email act hfind hdup
    (checkCollisions_ok activity_name act.schedule email acts hnc)

theorem signup_ignores_capacity_witness :
    signup_for_activity
      [("Chess Club".data,
        { description := "Learn strategies and compete in chess tournaments".data,
          schedule := "Fridays, 3:30 PM - 5:00 PM".data,
          max_participants := 2,
          participants := ["a@mergington.edu".data, "b@mergington.edu".data] })]
      "Chess Club".data "c@mergington.edu".data
      = (.ok ("Signed up ".data ++ "c@mergington.edu".data ++ " for ".data ++ "Chess Club".data),
         appendParticipant "Chess Club".data "c@mergington.edu".data
           [("Chess Club".data,
             { description := "Learn strategies and compete in chess tournaments".data,
               schedule := "Fridays, 3:30 PM - 5:00 PM".data,
               max_participants := 2,
               participants := ["a@mergington.edu".data, "b@mergington.edu".data] })]) :=
  signup_ignores_capacity _ _ _
    { description := "Learn strategies and compete in chess tournaments".data,
      schedule := "Fridays, 3:30 PM - 5:00 PM".data,
      max_participants := 2,
      participants := ["a@mergington.edu".data, "b@mergington.edu".data] }
    (by decide) (by decide) (by decide) (by decide)

/-- C8: failed signups are atomic: whenever the request returns an error of
any kind, the activity directory after the request is exactly the directory
before it. -/
theorem signup_error_preserves_state (acts : ActivityDir) (activity_name email : List Char)
    (e : Err) (h : (signup_for_activity acts activity_name email).1 = .error e) :
    (signup_for_activity acts activity_name email).2 = acts := by
  rcases hf : findAct activity_name acts with _ | act
  · rw [signup_eq_none acts activity_name email hf]
  · by_cases hm : email ∈ act.participants
    · rw [signup_eq_dup acts activity_name email act hf hm]
    · rcases hc : checkCollisions activity_name act.schedule email acts with e2 | u
      · rw [signup_eq_collision_error acts activity_name email act e2 hf hm hc]
      · rw [signup_eq_success acts activity_name email act hf hm hc] at h
        simp at h

theorem signup_error_preserves_state_witness :
    (signup_for_activity activities "Chess Club".data "michael@mergington.edu".data).2
      = activities :=
  signup_error_preserves_state activities "Chess Club".data "michael@mergington.edu".data
    (.httpError 400 "Student already signed up for this activity".data) (by decide)

theorem parsesOk_ok (s : List Char) (h : parsesOk s = true) :
    ∃ l, parse_schedule s = .ok l := by
  unfold parsesOk at h
  rcases hp : parse_schedule s with e | l
  · rw [hp] at h; simp at h
  · exact ⟨l, rfl⟩

theorem schedules_collide_ok (s1 s2 : List Char) (l1 l2 : List Slot)
    (h1 : parse_schedule s1 = .ok l1) (h2 : parse_schedule s2 = .ok l2) :
    schedules_collide s1 s2
      = .ok (l1.any fun a => l2.any fun b => slot_overlap a b) := by
  unfold schedules_collide
  rw [h1, h2]

theorem findAct_mem (name : List Char) (l : ActivityDir) (a : Activity)
    (h : findAct name l = some a) : (name, a) ∈ l := by
  induction l with
  | nil => cases h
  | cons p rest ih =>
    obtain ⟨n, b⟩ := p
    unfold findAct at h
    by_cases hn : n = name
    · rw [if_pos hn] at h
      injection h with h
      subst hn; subst h
      exact List.mem_cons_self _ _
    · rw [if_neg hn] at h
      exact List.mem_cons_of_mem _ (ih h)

theorem exists_mem_tail {α : Type} (q : α) (rest : List α) (P : α → Prop)
    (hex : ∃ p ∈ q :: rest, P p) (hq : ¬ P q) : ∃ p ∈ rest, P p := by
  obtain ⟨p, hp, hPp⟩ := hex
  rcases List.mem_cons.mp hp with h | h
  · subst h; exact absurd hPp hq
  · exact ⟨p, h, hPp⟩

theorem checkCollisions_finds (activity_name sched email : List Char) (l : ActivityDir)
    (hs : parsesOk sched = true)
    (hl : ∀ p ∈ l, parsesOk p.2.schedule = true)
    (hex : ∃ p ∈ l, p.1 ≠ activity_name ∧ email ∈ p.2.participants ∧
      schedules_collide sched p.2.schedule = .ok true) :
    ∃ onm oa, (onm, oa) ∈ l ∧ onm ≠ activity_name ∧ email ∈ oa.participants ∧
      schedules_collide sched oa.schedule = .ok true ∧
      checkCollisions activity_name sched email l
        = .error (.httpError 400 (collisionDetail email activity_name onm)) := by
  induction l with
  | nil => obtain ⟨p, hp, _⟩ := hex; cases hp
  | cons q rest ih =>
    obtain ⟨n, a⟩ := q
    by_cases hn : n = activity_name
    · have hex2 := exists_mem_tail (n, a) rest _ hex (fun hP => hP.1 hn)
      obtain ⟨onm, oa, hmem, hne, hmail, hcol, hcc⟩ :=
        ih (fun p hp => hl p (List.mem_cons_of_mem _ hp)) hex2
      refine ⟨onm, oa, List.mem_cons_of_mem _ hmem, hne, hmail, hcol, ?_⟩
      unfold checkCollisions
      rw [if_pos hn]
      exact hcc
    · by_cases hm : email ∈ a.participants
      · obtain ⟨ls, hls⟩ := parsesOk_ok sched hs
        obtain ⟨la, hla⟩ := parsesOk_ok a.schedule (hl (n, a) (List.mem_cons_self _ _))
        have hco := schedules_collide_ok sched a.schedule ls la hls hla
        rcases hb : (ls.any fun x => la.any fun y => slot_overlap x y) with _ | _
        · have hcof : schedules_collide sched a.schedule = .ok false := by rw [hco, hb]
          have hex2 := exists_mem_tail (n, a) rest _ hex
            (fun hP => by have h2 := hcof.symm.trans hP.2.2; simp at h2)
          obtain ⟨onm, oa, hmem, hne, hmail, hcol, hcc⟩ :=
            ih (fun p hp => hl p (List.mem_cons_of_mem _ hp)) hex2
          refine ⟨onm, oa, List.mem_cons_of_mem _ hmem, hne, hmail, hcol, ?_⟩
          unfold checkCollisions
          rw [if_neg hn, if_pos hm, hcof]
          exact hcc
        · have hcot : schedules_collide sched a.schedule = .ok true := by rw [hco, hb]
          refine ⟨n, a, List.mem_cons_self _ _, hn, hm, hcot, ?_⟩
          unfold checkCollisions
          rw [if_neg hn, if_pos hm, hcot]
      · have hex2 := exists_mem_tail (n, a) rest _ hex (fun hP => hm hP.2.1)
        obtain ⟨onm, oa, hmem, hne, hmail, hcol, hcc⟩ :=
          ih (fun p hp => hl p (List.mem_cons_of_mem _ hp)) hex2
        refine ⟨onm, oa, List.mem_cons_of_mem _ hmem, hne, hmail, hcol, ?_⟩
        unfold checkCollisions
        rw [if_neg hn, if_neg hm]
        exact hcc

/-- C6: the signup guards fire in order: a missing activity gives the 404
"Activity not found" error; otherwise an already-enrolled email gives the 400
duplicate error; otherwise, when some other activity enrolling the email has
a colliding schedule, the request fails with the 400 detail naming that
activity. (Stated for directories whose schedule strings all parse without
raising, which holds for the seeded data.) -/
theorem signup_guard_order (acts : ActivityDir) (activity_name email : List Char)
    (hwf : ∀ p ∈ acts, parsesOk p.2.schedule = true) :
    (findAct activity_name acts = none →
      signup_for_activity acts activity_name email
        = (.error (.httpError 404 "Activity not found".data), acts))
    ∧ (∀ act, findAct activity_name acts = some act → email ∈ act.participants →
      signup_for_activity acts activity_name email
        = (.error (.httpError 400 "Student already signed up for this activity".data), acts))
    ∧ (∀ act, findAct activity_name acts = some act → email ∉ act.participants →
      (∃ p ∈ acts, p.1 ≠ activity_name ∧ email ∈ p.2.participants ∧
        schedules_collide act.schedule p.2.schedule = .ok true) →
      ∃ other_name other, (other_name, other) ∈ acts ∧ other_name ≠ activity_name ∧
        email ∈ other.participants ∧
        schedules_collide act.schedule other.schedule = .ok true ∧
        signup_for_activity acts activity_name email
          = (.error (.httpError 400 (collisionDetail email activity_name other_name)), acts)) := by
  refine ⟨?_, ?_, ?_⟩
  · intro hf
    exact signup_eq_none acts activity_name email hf
  · intro act hf hm
    exact signup_eq_dup acts activity_name email act hf hm
  · intro act hf hm hex
    have hs : parsesOk act.schedule = true :=
      hwf (activity_name, act) (findAct_mem activity_name acts act hf)
    obtain ⟨onm, oa, hmem, hne, hmail, hcol, hcc⟩ :=
      checkCollisions_finds activity_name act.schedule email acts hs hwf hex
    exact ⟨onm, oa, hmem, hne, hmail, hcol,
      signup_eq_collision_error acts activity_name email act _ hf hm hcc⟩

theorem signup_guard_order_witness :
    signup_for_activity activities "Yoga Club".data "sam@mergington.edu".data
      = (.error (.httpError 404 "Activity not found".data), activities) :=
  (signup_guard_order activities "Yoga Club".data "sam@mergington.edu".data (by decide)).1
    (by decide)

theorem findAct_appendParticipant (name email : List Char) (acts : ActivityDir) :
    findAct name (appendParticipant name email acts)
      = Option.map (fun a => { a with participants := a.participants ++ [email] })
          (findAct name acts) := by
  induction acts with
  | nil => rfl
  | cons p rest ih =>
    obtain ⟨n, a⟩ := p
    unfold appendParticipant at ih ⊢
    simp only [List.map_cons]
    by_cases hn : n = name
    · simp only [if_pos hn]
      unfold findAct
      simp only [if_pos hn]
      rfl
    · simp only [if_neg hn]
      unfold findAct
      simp only [if_neg hn]
      exact ih

theorem mem_key_eq (acts : ActivityDir) (name : List Char) (act : Activity)
    (hkeys : (acts.map Prod.fst).Nodup)
    (hfind : findAct name acts = some act)
    (q : List Char × Activity) (hq : q ∈ acts) (hq1 : q.1 = name) : q.2 = act := by
  induction acts with
  | nil => cases hq
  | cons p rest ih =>
    obtain ⟨n, a⟩ := p
    simp only [List.map_cons, List.nodup_cons] at hkeys
    unfold findAct at hfind
    by_cases hn : n = name
    · rw [if_pos hn] at hfind
      injection hfind with hfind
      rcases List.mem_cons.mp hq with h | h
      · rw [h, ← hfind]
      · exfalso
        apply hkeys.1
        rw [hn, ← hq1]
        exact List.mem_map_of_mem Prod.fst h
    · rw [if_neg hn] at hfind
      rcases List.mem_cons.mp hq with h | h
      · exfalso
        apply hn
        rw [← hq1, h]
      · exact ih hkeys.2 hfind h

/-- C9: the no-duplicate-participants invariant is preserved by every signup
request (for a directory with unique activity names), and after a successful
signup the email occurs exactly once in the target participant list. -/
theorem signup_preserves_nodup (acts : ActivityDir) (activity_name email : List Char)
    (hkeys : (acts.map Prod.fst).Nodup)
    (hnd : ∀ p ∈ acts, p.2.participants.Nodup) :
    (∀ p ∈ (signup_for_activity acts activity_name email).2, p.2.participants.Nodup)
    ∧ (∀ m, (signup_for_activity acts activity_name email).1 = .ok m →
        ∀ a, findAct activity_name (signup_for_activity acts activity_name email).2 = some a →
          a.participants.count email = 1) := by
  rcases hf : findAct activity_name acts with _ | act
  · rw [signup_eq_none acts activity_name email hf]
    exact ⟨hnd, by intro m hm; simp at hm⟩
  · by_cases hm : email ∈ act.participants
    · rw [signup_eq_dup acts activity_name email act hf hm]
      exact ⟨hnd, by intro m hm2; simp at hm2⟩
    · rcases hc : checkCollisions activity_name act.schedule email acts with e | u
      · rw [signup_eq_collision_error acts activity_name email act e hf hm hc]
        exact ⟨hnd, by intro m hm2; simp at hm2⟩
      · rw [signup_eq_success acts activity_name email act hf hm hc]
        constructor
        · intro p hp
          unfold appendParticipant at hp
          obtain ⟨q, hq, hqe⟩ := List.mem_map.mp hp
          by_cases hqn : q.1 = activity_name
          · rw [if_pos hqn] at hqe
            rw [← hqe]
            have hq2 : q.2 = act := mem_key_eq acts activity_name act hkeys hf q hq hqn
            rw [hq2]
            rw [List.nodup_append]
            refine ⟨hnd (activity_name, act) (findAct_mem activity_name acts act hf),
              List.nodup_singleton _, ?_⟩
            intro x hx hx2
            rw [List.mem_singleton] at hx2
            rw [hx2] at hx
            exact hm hx
          · rw [if_neg hqn] at hqe
            rw [← hqe]
            exact hnd q hq
        · intro m hm2 a ha
          rw [findAct_appendParticipant activity_name email acts, hf] at ha
          injection ha with ha
          rw [← ha]
          have hcount0 : act.participants.count email = 0 :=
            List.count_eq_zero_of_not_mem hm
          simp [List.count_append, hcount0]

theorem signup_preserves_nodup_witness :
    ({ description := "Learn strategies and compete in chess tournaments".data,
       schedule := "Fridays, 3:30 PM - 5:00 PM".data,
       max_participants := 12,
       participants := ["michael@mergington.edu".data, "daniel@mergington.edu".data,
                        "newkid@mergington.edu".data] } : Activity).participants.count
      "newkid@mergington.edu".data = 1 :=
  (signup_preserves_nodup activities "Chess Club".data "newkid@mergington.edu".data
      (by decide) (by decide)).2
    ("Signed up ".data ++ "newkid@mergington.edu".data ++ " for ".data ++ "Chess Club".data)
    (by decide) _ (by decide)

theorem appendParticipant_length (activity_name email : List Char) (acts : ActivityDir) :
    (appendParticipant activity_name email acts).length = acts.length :=
  List.length_map acts _

theorem appendParticipant_get (activity_name email : List Char) (acts : ActivityDir)
    (i : Nat) (hi : i < acts.length)
    (hj : i < (appendParticipant activity_name email acts).length) :
    (appendParticipant activity_name email acts).get ⟨i, hj⟩
      = (fun p => if p.1 = activity_name
          then (p.1, { p.2 with participants := p.2.participants ++ [email] }) else p)
          (acts.get ⟨i, hi⟩) := by
  unfold appendParticipant
  simp [List.get_eq_getElem, List.getElem_map]

/-- C10: a successful signup only appends the email to the participant list
of the entries keyed by the target name: the directory keeps its length, every
entry keeps its name, description, schedule and capacity, every activity with
a different name is completely unchanged, and the target activity gets exactly
the email appended to its participants. -/
theorem signup_success_frame (acts : ActivityDir) (activity_name email m : List Char)
    (h : (signup_for_activity acts activity_name email).1 = .ok m) :
    (signup_for_activity acts activity_name email).2.length = acts.length
    ∧ ∀ i (hi : i < acts.length)
        (hj : i < (signup_for_activity acts activity_name email).2.length),
        (((signup_for_activity acts activity_name email).2.get ⟨i, hj⟩).1
            = (acts.get ⟨i, hi⟩).1)
        ∧ (((signup_for_activity acts activity_name email).2.get ⟨i, hj⟩).2.description
            = (acts.get ⟨i, hi⟩).2.description)
        ∧ (((signup_for_activity acts activity_name email).2.get ⟨i, hj⟩).2.schedule
            = (acts.get ⟨i, hi⟩).2.schedule)
        ∧ (((signup_for_activity acts activity_name email).2.get ⟨i, hj⟩).2.max_participants
            = (acts.get ⟨i, hi⟩).2.max_participants)
        ∧ ((acts.get ⟨i, hi⟩).1 ≠ activity_name →
            ((signup_for_activity acts activity_name email).2.get ⟨i, hj⟩).2
              = (acts.get ⟨i, hi⟩).2)
        ∧ ((acts.get ⟨i, hi⟩).1 = activity_name →
            ((signup_for_activity acts activity_name email).2.get ⟨i, hj⟩).2.participants
              = (acts.get ⟨i, hi⟩).2.participants ++ [email]) := by
  rcases hf : findAct activity_name acts with _ | act
  · rw [signup_eq_none acts activity_name email hf] at h
    simp at h
  · by_cases hm : email ∈ act.participants
    · rw [signup_eq_dup acts activity_name email act hf hm] at h
      simp at h
    · rcases hc : checkCollisions activity_name act.schedule email acts with e | u
      · rw [signup_eq_collision_error acts activity_name email act e hf hm hc] at h
        simp at h
      · rw [signup_eq_success acts activity_name email act hf hm hc]
        refine ⟨appendParticipant_length activity_name email acts, ?_⟩
        intro i hi hj
        rw [appendParticipant_get activity_name email acts i hi hj]
        by_cases hkey : (acts.get ⟨i, hi⟩).1 = activity_name
        · simp only [List.get_eq_getElem] at hkey
          simp [hkey]
        · simp only [List.get_eq_getElem] at hkey
          simp [hkey]

theorem signup_success_frame_witness :
    (signup_for_activity activities "Chess Club".data "taylor@mergington.edu".data).2.length
      = activities.length :=
  (signup_success_frame activities "Chess Club".data "taylor@mergington.edu".data
      ("Signed up ".data ++ "taylor@mergington.edu".data ++ " for ".data ++ "Chess Club".data)
      (by decide)).1
